import Mathlib

/-
  Verification of the prompt-manager web application core logic.

  The JavaScript source is shallowly embedded: the `Prompt` model class,
  the `StorageManager` persistence layer and the `TreeView.buildTreeStructure`
  / `TreeView.deletePrompt` operations become pure Lean functions over explicit
  state.  JavaScript `Map`s and `Set`s become association lists / string lists
  with the Map/Set insertion semantics made explicit; the nondeterministic
  environment (generated identifiers, the current date, the user's answer to a
  confirmation dialog) is passed as explicit parameters; JavaScript exceptions
  become `Except` values.
-/

set_option autoImplicit false
set_option maxRecDepth 8192

namespace PromptManager

/-- JavaScript `String.prototype.toLowerCase`, modelled on the ASCII range
(the application compares user-entered ASCII text). -/
def jsToLower (s : String) : String := .mk (s.toList.map Char.toLower)

/-- Contiguous-sublist test on character lists. -/
def listIsInfixOf (needle : List Char) : List Char → Bool
  | [] => needle.isEmpty
  | c :: t => needle.isPrefixOf (c :: t) || listIsInfixOf needle t

/-- JavaScript `String.prototype.includes`: substring containment
(true for the empty needle, as in JavaScript). -/
def jsIncludes (hay needle : String) : Bool := listIsInfixOf needle.toList hay.toList

/-- JavaScript `String.prototype.startsWith`. -/
def jsStartsWith (hay needle : String) : Bool := needle.toList.isPrefixOf hay.toList

/-- JavaScript `String.prototype.trim`: strip whitespace from both ends. -/
def jsTrim (s : String) : String :=
  .mk (((s.toList.dropWhile Char.isWhitespace).reverse.dropWhile Char.isWhitespace).reverse)

/-- The record type of the `Prompt` model class (`src/unnamed/part_000`,
constructor lines 16-34): one field per instance property. -/
structure Prompt where
  id : String
  title : String
  type : String
  prompt : String
  negative_prompt : String
  model : String
  author : String
  tags : List String
  notes : String
  version : String
  created : String
  modified : String
  category : String
  isFavorite : Bool
deriving DecidableEq, Repr

/-- A JavaScript object passed to the `Prompt` constructor, to `Prompt.update`
or carried inside backups/imports: each property is either absent (`none`) or
present with a value.  Tag values are lists (the code checks `Array.isArray`).
The same shape serves as the output of `toObject`. -/
structure PromptData where
  id : Option String
  title : Option String
  type : Option String
  prompt : Option String
  negative_prompt : Option String
  model : Option String
  author : Option String
  tags : Option (List String)
  notes : Option String
  version : Option String
  created : Option String
  modified : Option String
  category : Option String
  isFavorite : Option Bool
deriving DecidableEq, Repr

/-- The object `{}` with every property absent. -/
def PromptData.empty : PromptData :=
  ⟨none, none, none, none, none, none, none, none, none, none, none, none, none, none⟩

/-- JavaScript `data.x || default` for string properties: an absent or empty
(falsy) value yields the default. -/
def strOr (o : Option String) (d : String) : String :=
  match o with
  | none => d
  | some s => if s = "" then d else s

/-- `Object.values(Prompt.TYPES)`. -/
def TYPES : List String := ["text_generation", "image_generation", "code", "other"]

/-- The field assignments of the `Prompt` constructor (before `validate` is
called).  `freshId` stands for the value of `generateId()` and `today` for
`new Date().toISOString().split('T')[0]`. -/
def mkPromptRaw (freshId today : String) (d : PromptData) : Prompt where
  id := strOr d.id freshId
  title := strOr d.title ""
  type := strOr d.type "text_generation"
  prompt := strOr d.prompt ""
  negative_prompt := strOr d.negative_prompt ""
  model := strOr d.model ""
  author := strOr d.author ""
  tags := d.tags.getD []
  notes := strOr d.notes ""
  version := strOr d.version "1.0"
  created := strOr d.created today
  modified := strOr d.modified today
  category := strOr d.category ""
  isFavorite := d.isFavorite.getD false

/-- A nonempty all-digit string, i.e. one match of the regex piece `\d+`. -/
def digitsOnly (s : String) : Bool := !(s == "") && s.toList.all Char.isDigit

/-- Split a character list on a separator (the list-level behavior of
`String.splitOn` for a one-character separator). -/
def splitOnChar (sep : Char) : List Char → List (List Char)
  | [] => [[]]
  | c :: t =>
    if c == sep then [] :: splitOnChar sep t
    else
      match splitOnChar sep t with
      | h :: r => (c :: h) :: r
      | [] => [[c]]

/-- `String.splitOn` for a one-character separator. -/
def splitStr (sep : Char) (s : String) : List String :=
  (splitOnChar sep s.toList).map .mk

/-- The test `/^\d+\.\d+(\.\d+)?$/.test(version)`. -/
def versionOk (s : String) : Bool :=
  match splitStr '.' s with
  | [a, b] => digitsOnly a && digitsOnly b
  | [a, b, c] => digitsOnly a && digitsOnly b && digitsOnly c
  | _ => false

def isLeapYear (y : Nat) : Bool := (y % 4 == 0 && !(y % 100 == 0)) || y % 400 == 0

def daysInMonth (y m : Nat) : Nat :=
  if m == 2 then (if isLeapYear y then 29 else 28)
  else if m == 4 || m == 6 || m == 9 || m == 11 then 30
  else 31

/-- Numeric value of an all-digit string. -/
def digitsVal (s : String) : Nat := s.toList.foldl (fun n c => n * 10 + (c.toNat - 48)) 0

/-- Modelled from the spec: `Prompt.isValidDate` defers to the host date
parser (`new Date(dateString)`), which is not part of this repository.  The
spec states that dates are "valid calendar dates in ISO-date-only form", so
this models acceptance of exactly the `YYYY-MM-DD` strings that denote valid
calendar dates (the only date strings the application itself produces). -/
def isValidDate (s : String) : Bool :=
  match splitStr '-' s with
  | [y, m, d] =>
    digitsOnly y && digitsOnly m && digitsOnly d &&
    y.length == 4 && m.length == 2 && d.length == 2 &&
    1 ≤ digitsVal m && digitsVal m ≤ 12 &&
    1 ≤ digitsVal d && digitsVal d ≤ daysInMonth (digitsVal y) (digitsVal m)
  | _ => false

/-- `Prompt.validate` (lines 48-99): the list of collected error messages, in
source order.  An empty list means validation passes; the constructor and
`update` throw when it is nonempty.  Messages that embed quoted values in the
source are abridged to a fixed text here (no claim depends on message text).
The `Tags must be an array` error can never fire in this embedding because
`tags` is a list by type, so it is omitted. -/
def Prompt.validate (p : Prompt) : List String :=
  (if p.title == "" || jsTrim p.title == "" then ["Field title is required"] else []) ++
  (if p.type == "" || jsTrim p.type == "" then ["Field type is required"] else []) ++
  (if p.prompt == "" || jsTrim p.prompt == "" then ["Field prompt is required"] else []) ++
  (if !(TYPES.contains p.type) then ["Invalid type"] else []) ++
  (if !(p.title == "") && decide (p.title.length > 200) then
    ["Title must be 200 characters or less"] else []) ++
  (if !(p.prompt == "") && decide (p.prompt.length > 10000) then
    ["Prompt must be 10000 characters or less"] else []) ++
  (if decide (p.tags.length > 20) then ["Maximum 20 tags allowed"] else []) ++
  (if !(p.version == "") && !(versionOk p.version) then
    ["Version must be in format X.Y or X.Y.Z"] else []) ++
  (if !(p.created == "") && !(isValidDate p.created) then
    ["Invalid created date format"] else []) ++
  (if !(p.modified == "") && !(isValidDate p.modified) then
    ["Invalid modified date format"] else [])

/-- `new Prompt(data)`: assign the fields, then validate, throwing on any
collected error. -/
def mkPrompt (freshId today : String) (d : PromptData) : Except String Prompt :=
  let p := mkPromptRaw freshId today d
  match p.validate with
  | [] => .ok p
  | errs => .error ("Validation failed: " ++ String.intercalate ", " errs)

/-- `Prompt.toObject` (lines 149-166): every property present. -/
def Prompt.toObject (p : Prompt) : PromptData where
  id := some p.id
  title := some p.title
  type := some p.type
  prompt := some p.prompt
  negative_prompt := some p.negative_prompt
  model := some p.model
  author := some p.author
  tags := some p.tags
  notes := some p.notes
  version := some p.version
  created := some p.created
  modified := some p.modified
  category := some p.category
  isFavorite := some p.isFavorite

/-- `Prompt.clone` (lines 138-143): take `toObject`, drop the identifier,
suffix the title with the copy marker, and run the (validating) constructor. -/
def Prompt.clone (p : Prompt) (freshId today : String) : Except String Prompt :=
  let d := p.toObject
  mkPrompt freshId today { d with id := none, title := some (p.title ++ " (Copy)") }

/-- The assignment phase of `Prompt.update` (lines 115-128): copy each
allow-listed property that is present in the input onto the record, then
refresh the modified date.  Properties outside the allow-list (`id`,
`created`, `modified`) are never copied. -/
def applyUpdate (p : Prompt) (d : PromptData) (today : String) : Prompt where
  id := p.id
  title := d.title.getD p.title
  type := d.type.getD p.type
  prompt := d.prompt.getD p.prompt
  negative_prompt := d.negative_prompt.getD p.negative_prompt
  model := d.model.getD p.model
  author := d.author.getD p.author
  tags := d.tags.getD p.tags
  notes := d.notes.getD p.notes
  version := d.version.getD p.version
  created := p.created
  modified := today
  category := d.category.getD p.category
  isFavorite := d.isFavorite.getD p.isFavorite

/-- `Prompt.update` (lines 115-132).  In the source the assignments mutate
`this` and a failing re-validation escapes as an exception, leaving the object
mutated; here the pair returns the post-call state of the object together with
the raised error, if any. -/
def Prompt.update (p : Prompt) (d : PromptData) (today : String) :
    Prompt × Option String :=
  let q := applyUpdate p d today
  match q.validate with
  | [] => (q, none)
  | errs => (q, some ("Validation failed: " ++ String.intercalate ", " errs))

/-- `Prompt.getTagsString` (lines 250-252). -/
def Prompt.getTagsString (p : Prompt) : String := String.intercalate ", " p.tags

/-- A scalar or list value in the serialized (YAML) representation. -/
inductive YVal where
  | str (s : String)
  | arr (l : List String)
  | bool (b : Bool)
deriving DecidableEq, Repr

def YVal.isEmptyVal : YVal → Bool
  | .str s => s == ""
  | .arr l => l.isEmpty
  | .bool _ => false

/-- The object literal built inside `Prompt.toYAML` (lines 173-185), in source
key order: eleven fields; `id`, `category` and `isFavorite` are not included. -/
def Prompt.yamlFields (p : Prompt) : List (String × YVal) :=
  [("title", .str p.title), ("type", .str p.type), ("prompt", .str p.prompt),
   ("negative_prompt", .str p.negative_prompt), ("model", .str p.model),
   ("author", .str p.author), ("tags", .arr p.tags), ("notes", .str p.notes),
   ("version", .str p.version), ("created", .str p.created),
   ("modified", .str p.modified)]

/-- `Prompt.toYAML` (lines 172-200): drop entries whose value is the empty
string or an empty array, then dump.  `jsyaml.dump` of a flat string-keyed
object is a faithful (invertible) rendering of its entry list and is not part
of this repository, so the serialized form is modelled as that entry list. -/
def Prompt.toYAML (p : Prompt) : List (String × YVal) :=
  p.yamlFields.filter (fun kv => !kv.2.isEmptyVal)

def lookupStr (es : List (String × YVal)) (k : String) : Option String :=
  match es.lookup k with
  | some (.str s) => some s
  | _ => none

def lookupArr (es : List (String × YVal)) (k : String) : Option (List String) :=
  match es.lookup k with
  | some (.arr l) => some l
  | _ => none

def lookupBool (es : List (String × YVal)) (k : String) : Option Bool :=
  match es.lookup k with
  | some (.bool b) => some b
  | _ => none

/-- The object obtained by `jsyaml.load` of a serialized record, viewed as a
constructor input. -/
def yamlToData (es : List (String × YVal)) : PromptData where
  id := lookupStr es "id"
  title := lookupStr es "title"
  type := lookupStr es "type"
  prompt := lookupStr es "prompt"
  negative_prompt := lookupStr es "negative_prompt"
  model := lookupStr es "model"
  author := lookupStr es "author"
  tags := lookupArr es "tags"
  notes := lookupStr es "notes"
  version := lookupStr es "version"
  created := lookupStr es "created"
  modified := lookupStr es "modified"
  category := lookupStr es "category"
  isFavorite := lookupBool es "isFavorite"

/-- `Prompt.fromYAML` (lines 208-215) with empty `metadata`: parse, then run
the (validating) constructor. -/
def Prompt.fromYAML (es : List (String × YVal)) (freshId today : String) :
    Except String Prompt :=
  mkPrompt freshId today (yamlToData es)

/-- `Prompt.getSearchRelevance` (lines 283-316). -/
def Prompt.getSearchRelevance (p : Prompt) (query : String) : Nat :=
  if query == "" || jsTrim query == "" then 0
  else
    let searchText := jsToLower query
    let score : Nat := 0
    let score := if jsIncludes (jsToLower p.title) searchText then
        score + 50 + (if jsStartsWith (jsToLower p.title) searchText then 25 else 0)
      else score
    let score := if jsIncludes (jsToLower p.prompt) searchText then score + 20 else score
    let score := if jsIncludes (jsToLower p.getTagsString) searchText then score + 15 else score
    let score := [p.notes, p.author, p.model].foldl
      (fun sc f => if !(f == "") && jsIncludes (jsToLower f) searchText then sc + 5 else sc)
      score
    min score 100

/-- The relevance formula exactly as the specification words it, for
comparison with the implementation: the minimum of 100 and the sum of 50 for a
case-insensitive title substring match, a further 25 for a title prefix match,
20 for a body match, 15 for a comma-joined-tag-list match, and 5 for each of
notes, author and model that match. -/
def specRelevanceScore (p : Prompt) (q : String) : Nat :=
  let st := jsToLower q
  min 100
    ((if jsIncludes (jsToLower p.title) st then
        50 + (if jsStartsWith (jsToLower p.title) st then 25 else 0) else 0) +
     (if jsIncludes (jsToLower p.prompt) st then 20 else 0) +
     (if jsIncludes (jsToLower p.getTagsString) st then 15 else 0) +
     (if jsIncludes (jsToLower p.notes) st then 5 else 0) +
     (if jsIncludes (jsToLower p.author) st then 5 else 0) +
     (if jsIncludes (jsToLower p.model) st then 5 else 0))

/-- A category's stored metadata (`{name, icon, color}`). -/
structure CategoryInfo where
  name : String
  icon : String
  color : String
deriving DecidableEq, Repr

/-- A settings value (`settings` is a flat object of strings, numbers,
booleans and string lists). -/
inductive SVal where
  | str (s : String)
  | num (n : Nat)
  | bool (b : Bool)
  | strList (l : List String)
deriving DecidableEq, Repr

/-- JavaScript `Map.prototype.set` on an association list: replace in place if
the key exists, otherwise append (preserving insertion order). -/
def mapSet {α : Type} (l : List (String × α)) (k : String) (v : α) :
    List (String × α) :=
  if l.any (fun kv => kv.1 == k) then
    l.map (fun kv => if kv.1 == k then (k, v) else kv)
  else l ++ [(k, v)]

/-- JavaScript `Set.prototype.add` on an insertion-ordered list. -/
def setAdd (l : List String) (x : String) : List String :=
  if l.contains x then l else l ++ [x]

/-- JavaScript object spread `{...base, ...over}`: keys of `base` keep their
position with `over`'s value winning, new keys of `over` are appended. -/
def objMerge {α : Type} (base over : List (String × α)) : List (String × α) :=
  over.foldl (fun acc kv => mapSet acc kv.1 kv.2) base

/-- The in-memory collections owned by `StorageManager`
(`src/unnamed/part_000`, constructor lines 428-436): the prompt `Map`, the
category `Map`, the favorites `Set` and the settings object. -/
structure StorageManager where
  prompts : List (String × Prompt)
  categories : List (String × CategoryInfo)
  favorites : List String
  settings : List (String × SVal)
deriving DecidableEq, Repr

/-- `StorageManager.getDefaultSettings` (lines 530-541). -/
def defaultSettings : List (String × SVal) :=
  [("theme", .str "light"), ("autoSave", .bool true), ("backupEnabled", .bool true),
   ("searchDebounce", .num 300), ("itemsPerPage", .num 50),
   ("defaultCategory", .str "general"), ("sortBy", .str "modified"),
   ("sortOrder", .str "desc")]

/-- The data snapshot stored inside one backup (lines 649-654). -/
structure BackupData where
  prompts : List PromptData
  categories : List (String × CategoryInfo)
  favorites : List String
  settings : List (String × SVal)
deriving DecidableEq, Repr

/-- One backup entry (lines 646-655). -/
structure Backup where
  timestamp : String
  version : String
  data : BackupData
deriving DecidableEq, Repr

/-- `StorageManager.MAX_BACKUPS`. -/
def MAX_BACKUPS : Nat := 5

/-- The backup object built by `createBackup` (lines 646-655): a timestamp,
the format version and a snapshot of the four collections (prompts via
`toObject`). -/
def mkBackup (st : StorageManager) (timestamp : String) : Backup where
  timestamp := timestamp
  version := "1.0"
  data :=
    { prompts := st.prompts.map (fun kv => kv.2.toObject)
      categories := st.categories
      favorites := st.favorites
      settings := st.settings }

/-- `StorageManager.createBackup` (lines 644-670): unshift the new backup onto
the stored list and keep only the first `MAX_BACKUPS` entries.  Returns the
new stored backup list. -/
def StorageManager.createBackup (st : StorageManager) (timestamp : String)
    (backups : List Backup) : List Backup :=
  (mkBackup st timestamp :: backups).take MAX_BACKUPS

/-- The `data.prompts.forEach` loop of `restoreFromBackup` (lines 690-695):
construct each prompt and `set` it into the cleared map.  A constructor throw
escapes the loop; the error value carries the partially filled map that the
mutation had already produced.  `gen i` stands for the identifier
`generateId()` would produce for the `i`-th record. -/
def buildPromptMapGo (gen : Nat → String) (today : String) (i : Nat)
    (acc : List (String × Prompt)) :
    List PromptData → Except (List (String × Prompt)) (List (String × Prompt))
  | [] => .ok acc
  | d :: ds =>
    match mkPrompt (gen i) today d with
    | .error _ => .error acc
    | .ok p => buildPromptMapGo gen today (i + 1) (mapSet acc p.id p) ds

/-- `StorageManager.restoreFromBackup` (lines 677-717): an out-of-range index
throws `Backup not found`, which the surrounding `try` converts into the
returned failure flag `false` before any collection is touched; otherwise all
four collections are replaced from the snapshot (settings merged over the
defaults).  Returns the success flag together with the resulting state. -/
def StorageManager.restoreFromBackup (st : StorageManager)
    (backups : List Backup) (backupIndex : Nat) (gen : Nat → String)
    (today : String) : Bool × StorageManager :=
  match backups.get? backupIndex with
  | none => (false, st)
  | some b =>
    match buildPromptMapGo gen today 0 [] b.data.prompts with
    | .error partialMap => (false, { st with prompts := partialMap })
    | .ok pm =>
      (true,
       { prompts := pm
         categories := b.data.categories
         favorites := b.data.favorites.foldl setAdd []
         settings := objMerge defaultSettings b.data.settings })

/-- `StorageManager.clearAll` (lines 820-830), restricted to the in-memory
collections (the store wipe is persistence plumbing). -/
def StorageManager.clearAll (_st : StorageManager) : StorageManager where
  prompts := []
  categories := []
  favorites := []
  settings := defaultSettings

/-- The `{imported, skipped, errors}` summary returned by `importData`. -/
structure ImportResult where
  imported : Nat
  skipped : Nat
  errors : List String
deriving DecidableEq, Repr

/-- The result of parsing an import blob (`JSON.parse` / `jsyaml.load` are
host parsers outside this repository; the claims concern what `importData`
does with the parsed value): each top-level collection may be absent. -/
structure ParsedData where
  prompts : Option (List PromptData)
  categories : Option (List (String × CategoryInfo))
  favorites : Option (List String)
  settings : Option (List (String × SVal))
deriving DecidableEq, Repr

/-- The `parsedData.prompts.forEach` loop of `importData` (lines 891-905):
construct each incoming prompt (a throw appends an error message and moves
on); a constructed prompt is added and counted as imported when
`!merge || !has(id)`, otherwise counted as skipped. -/
def importPromptsGo (gen : Nat → String) (today : String) (merge : Bool)
    (i : Nat) (pm : List (String × Prompt)) (res : ImportResult) :
    List PromptData → List (String × Prompt) × ImportResult
  | [] => (pm, res)
  | d :: ds =>
    match mkPrompt (gen i) today d with
    | .error e =>
      importPromptsGo gen today merge (i + 1) pm
        { res with errors := res.errors ++ ["Failed to import prompt: " ++ e] } ds
    | .ok p =>
      if !merge || !(pm.any (fun kv => kv.1 == p.id)) then
        importPromptsGo gen today merge (i + 1) (mapSet pm p.id p)
          { res with imported := res.imported + 1 } ds
      else
        importPromptsGo gen today merge (i + 1) pm
          { res with skipped := res.skipped + 1 } ds

/-- `StorageManager.importData` (lines 864-932) on an already-parsed payload:
clear everything unless merging, fold the incoming prompts through the import
loop, then merge categories (`Map.set` per entry), favorites (`Set.add` per
entry) and settings (spread, later values winning).  Returns the new state and
the `{imported, skipped, errors}` summary. -/
def StorageManager.importData (st : StorageManager) (parsed : ParsedData)
    (merge : Bool) (gen : Nat → String) (today : String) :
    StorageManager × ImportResult :=
  let st0 := if !merge then st.clearAll else st
  let pr := match parsed.prompts with
    | some ds => importPromptsGo gen today merge 0 st0.prompts ⟨0, 0, []⟩ ds
    | none => (st0.prompts, ⟨0, 0, []⟩)
  let cats := match parsed.categories with
    | some cs => cs.foldl (fun acc kv => mapSet acc kv.1 kv.2) st0.categories
    | none => st0.categories
  let favs := match parsed.favorites with
    | some fs => fs.foldl setAdd st0.favorites
    | none => st0.favorites
  let setts := match parsed.settings with
    | some s => objMerge st0.settings s
    | none => st0.settings
  ({ prompts := pr.1, categories := cats, favorites := favs, settings := setts },
   pr.2)

/-- `path.includes('/') ? path.substring(0, path.lastIndexOf('/')) : null`
(`src/js/views/tree-view.js` line 142): everything before the last slash. -/
def parentPath (path : String) : Option String :=
  if path.toList.contains '/' then
    some (.mk (((path.toList.reverse.dropWhile (fun c => !(c == '/'))).drop 1).reverse))
  else none

/-- One entry of `tree.categories` (tree-view.js lines 139-144). -/
structure CatNode where
  info : CategoryInfo
  items : List Prompt
  parent : Option String
  children : List String
deriving DecidableEq, Repr

/-- The tree produced by `buildTreeStructure` (lines 130-134). -/
structure Tree where
  categories : List (String × CatNode)
  favorites : List Prompt
  uncategorized : List Prompt
deriving DecidableEq, Repr

/-- The items of the tree's category entry with the given key (empty when no
such entry exists). -/
def Tree.itemsOf (t : Tree) (k : String) : List Prompt :=
  match t.categories.lookup k with
  | some n => n.items
  | none => []

/-- First loop of `buildTreeStructure` (lines 137-146): one entry per stored
category, in map order, skipping the reserved `favorites` key; the parent is
derived lexically. -/
def initCategories (cats : List (String × CategoryInfo)) : List (String × CatNode) :=
  (cats.filter (fun kv => !(kv.1 == "favorites"))).map
    (fun kv => (kv.1, ⟨kv.2, [], parentPath kv.1, []⟩))

/-- Append `childKey` to the (deduplicated) children list of the entry keyed
`parentKey` (lines 152-154). -/
def pushChild : List (String × CatNode) → String → String → List (String × CatNode)
  | [], _, _ => []
  | (k0, n) :: tl, parentKey, childKey =>
    (if k0 = parentKey then
      (k0, { n with children :=
        if n.children.contains childKey then n.children
        else n.children ++ [childKey] })
     else (k0, n)) :: pushChild tl parentKey childKey

/-- One iteration of the second loop of `buildTreeStructure` (lines 149-156):
if the entry keyed `path` has a non-empty parent key that itself has an entry,
record `path` as a child of that parent. -/
def childStep (acc : List (String × CatNode)) (path : String) :
    List (String × CatNode) :=
  match (acc.lookup path).bind CatNode.parent with
  | some pp =>
    if !(pp == "") && acc.any (fun kv => kv.1 == pp) then pushChild acc pp path
    else acc
  | none => acc

/-- Second loop of `buildTreeStructure`: fold `childStep` over the entry keys. -/
def populateChildren (cats : List (String × CatNode)) : List (String × CatNode) :=
  (cats.map Prod.fst).foldl childStep cats

/-- Append a prompt to the items of the category entry keyed `k`. -/
def pushItem : List (String × CatNode) → String → Prompt → List (String × CatNode)
  | [], _, _ => []
  | (k0, n) :: tl, k, p =>
    (if k0 = k then (k0, { n with items := n.items ++ [p] }) else (k0, n))
      :: pushItem tl k p

/-- Third loop of `buildTreeStructure` (lines 162-174), for one prompt: a
favorite is pushed to the favorites bucket; the prompt's category (defaulting
to `uncategorized` when unset) receives it if it has a tree entry; otherwise
it lands in the uncategorized bucket only when the resolved category is
literally `uncategorized` and the prompt is not a favorite. -/
def placePrompt (t : Tree) (p : Prompt) : Tree :=
  let t := if p.isFavorite then { t with favorites := t.favorites ++ [p] } else t
  let category := if p.category == "" then "uncategorized" else p.category
  if t.categories.any (fun kv => kv.1 == category) then
    { t with categories := pushItem t.categories category p }
  else if category == "uncategorized" && !p.isFavorite then
    { t with uncategorized := t.uncategorized ++ [p] }
  else t

/-- `TreeView.buildTreeStructure` (tree-view.js lines 129-177). -/
def buildTreeStructure (st : StorageManager) : Tree :=
  (st.prompts.map Prod.snd).foldl placePrompt
    { categories := populateChildren (initCategories st.categories)
      favorites := []
      uncategorized := [] }

/-- `TreeView.deletePrompt` (tree-view.js lines 899-920), restricted to the
collection mutations: an unknown identifier returns immediately; otherwise,
when the user confirms the dialog, the identifier is deleted from both the
prompt map and the favorites set.  `confirmed` is the user's answer to
`confirm(...)`. -/
def deletePrompt (st : StorageManager) (promptId : String) (confirmed : Bool) :
    StorageManager :=
  match st.prompts.lookup promptId with
  | none => st
  | some _ =>
    if confirmed then
      { st with
        prompts := st.prompts.filter (fun kv => !(kv.1 == promptId))
        favorites := st.favorites.filter (fun s => !(s == promptId)) }
    else st

/-! Helper lemmas and sample data shared by the claim theorems. -/

/-- A concrete valid record used by several witnesses. -/
def samplePrompt (id title category : String) (fav : Bool) : Prompt :=
  ⟨id, title, "code", "Body", "", "", "", [], "", "1.0", "2024-01-01",
   "2024-01-02", category, fav⟩

/-- The concrete store used by the C5 witness. -/
def sampleStoreC5 : StorageManager :=
  ⟨[("a", samplePrompt "a" "T" "" true), ("b", samplePrompt "b" "U" "" false)],
   [], ["a"], defaultSettings⟩

/-- The empty store used by the C6 and C7 witnesses. -/
def emptyStore : StorageManager := ⟨[], [], [], defaultSettings⟩

/-- Five existing snapshots used by the C6 witness. -/
def sampleBackups5 : List Backup :=
  [mkBackup emptyStore "t5", mkBackup emptyStore "t4", mkBackup emptyStore "t3",
   mkBackup emptyStore "t2", mkBackup emptyStore "t1"]

/-- The update input used by the C9 witness: a new title plus attempts to
overwrite the identifier and the dates. -/
def sampleUpdateC9 : PromptData :=
  { PromptData.empty with
      title := some "New title", id := some "evil-id",
      created := some "1999-01-01", modified := some "1999-01-01" }

/-- The record used by the C8 counterexample: its title contains a space. -/
def samplePromptC8 : Prompt :=
  ⟨"p8", "a b", "code", "xy", "", "", "", [], "", "1.0", "2024-01-01",
   "2024-01-02", "", false⟩

/-- A record with a valid 200-character title, used by the C3 counterexample. -/
def samplePromptC3 : Prompt :=
  ⟨"p3", .mk (List.replicate 200 'a'), "code", "Body", "", "", "", [], "",
   "1.0", "2024-01-01", "2024-01-02", "", false⟩

/-- `s = "" ? none : some s`, the shape a field takes after a round trip
through the empty-field-dropping serializer. -/
def optOfNonempty (s : String) : Option String := if s = "" then none else some s

/-- An import payload whose single record collides with the identifier `a`
already present in `sampleStoreC5`; used by the C4 witness. -/
def sampleImportC4 : ParsedData :=
  ⟨some [(samplePrompt "a" "Other" "" false).toObject], none, none, none⟩

/-- An import payload with one fresh-identifier record (`c`) followed by one
record colliding with `sampleStoreC5`'s identifier `a`; used by the C4
witness. -/
def sampleImportC4b : ParsedData :=
  ⟨some [(samplePrompt "c" "New" "" false).toObject,
         (samplePrompt "a" "Other" "" false).toObject], none, none, none⟩

/-- The per-record classification process that the specification describes
for a merge import, stated over the set of identifiers present so far: each
incoming record in order either fails to construct (its error message is
recorded), or its identifier is already present (it is counted as skipped),
or its identifier is fresh (it is counted as imported and its identifier
becomes present for the records after it).  The implementation's returned
summary is proven equal to this process. -/
def mergeImportSpec (gen : Nat → String) (today : String) :
    Nat → List String → List PromptData → ImportResult
  | _, _, [] => ⟨0, 0, []⟩
  | i, keys, d :: ds =>
    match mkPrompt (gen i) today d with
    | .error e =>
      let r := mergeImportSpec gen today (i + 1) keys ds
      ⟨r.imported, r.skipped, ("Failed to import prompt: " ++ e) :: r.errors⟩
    | .ok p =>
      if p.id ∈ keys then
        let r := mergeImportSpec gen today (i + 1) keys ds
        ⟨r.imported, r.skipped + 1, r.errors⟩
      else
        let r := mergeImportSpec gen today (i + 1) (keys ++ [p.id]) ds
        ⟨r.imported + 1, r.skipped, r.errors⟩

/-- The category key a prompt is grouped under in the tree build:
`prompt.category || 'uncategorized'`. -/
def resolvedCategory (p : Prompt) : String :=
  if p.category == "" then "uncategorized" else p.category

/-- Whether the tree has a category entry with the given key
(`tree.categories[category]` truthiness). -/
def treeHasKey (t : Tree) (k : String) : Bool :=
  t.categories.any (fun kv => kv.1 == k)

/-- The keys of the stored categories that get a tree entry: every stored key
except the reserved `favorites`. -/
def storedCatKeys (st : StorageManager) : List String :=
  (st.categories.filter (fun kv => !(kv.1 == "favorites"))).map Prod.fst

/-- A non-favorite record whose category names no stored entry; used by the
C2 counterexample. -/
def samplePromptGhost : Prompt := samplePrompt "g1" "Ghost" "ghost" false

/-- A store with one stored category and one ghost-category record; used by
the C2 counterexample. -/
def sampleStoreC2 : StorageManager :=
  ⟨[("g1", samplePromptGhost)],
   [("general", ⟨"Generale", "folder", "#6b7280"⟩)], [], defaultSettings⟩

/-- A store with a favorite categorized record and an uncategorized record;
used by the C2 witness. -/
def sampleStoreC2W : StorageManager :=
  ⟨[("a", samplePrompt "a" "T" "general" true), ("u", samplePrompt "u" "U" "" false)],
   [("general", ⟨"Generale", "folder", "#111111"⟩)], ["a"], defaultSettings⟩

theorem filter_length_of_lookup {β : Type} (k : String) (l : List (String × β))
    (hnd : (l.map Prod.fst).Nodup) (hs : (l.lookup k).isSome = true) :
    (l.filter (fun kv => !(kv.1 == k))).length + 1 = l.length := by
  induction l with
  | nil => simp [List.lookup] at hs
  | cons hd tl ih =>
    obtain ⟨k', v'⟩ := hd
    rw [List.map_cons, List.nodup_cons] at hnd
    by_cases hk : k' = k
    · subst hk
      have htl : List.filter (fun kv => !(kv.1 == k')) tl = tl := by
        apply List.filter_eq_self.mpr
        intro kv hm
        have hne : kv.1 ≠ k' := by
          intro hkv
          have hmm : kv.1 ∈ List.map Prod.fst tl := List.mem_map_of_mem Prod.fst hm
          rw [hkv] at hmm
          exact hnd.1 hmm
        simpa using hne
      simp [List.filter_cons, htl]
    · have hbk : (k == k') = false := by
        simpa using fun h => hk h.symm
      have hs' : (tl.lookup k).isSome = true := by
        simpa [List.lookup, hbk] using hs
      have hrec := ih hnd.2 hs'
      have hf : (!(k' == k)) = true := by simpa using hk
      rw [List.filter_cons, if_pos hf]
      simpa using hrec

/-- Claim C5 — `TreeView.deletePrompt`: a confirmed delete of a present
identifier removes it from both the prompt map and the favorites set and
shrinks the prompt map by exactly one entry; deleting an absent identifier
changes nothing. -/
theorem deletePrompt_spec (st : StorageManager) (promptId : String) :
    ((st.prompts.lookup promptId).isSome = true →
      (st.prompts.map Prod.fst).Nodup →
      (deletePrompt st promptId true).prompts.length + 1 = st.prompts.length ∧
      promptId ∉ (deletePrompt st promptId true).prompts.map Prod.fst ∧
      promptId ∉ (deletePrompt st promptId true).favorites ∧
      (deletePrompt st promptId true).categories = st.categories) ∧
    (st.prompts.lookup promptId = none →
      ∀ confirmed, deletePrompt st promptId confirmed = st) := by
  constructor
  · intro hs hnd
    obtain ⟨v, hv⟩ := Option.isSome_iff_exists.mp hs
    refine ⟨?_, ?_, ?_, ?_⟩
    · simpa [deletePrompt, hv] using filter_length_of_lookup promptId st.prompts hnd hs
    · simp [deletePrompt, hv, List.mem_map, List.mem_filter]
    · simp [deletePrompt, hv, List.mem_filter]
    · simp [deletePrompt, hv]
  · intro hn confirmed
    simp [deletePrompt, hn]

/-- Witness for C5 on a concrete two-prompt store. -/
theorem deletePrompt_spec_witness :
    ((deletePrompt sampleStoreC5 "a" true).prompts.length + 1 = 2 ∧
      "a" ∉ (deletePrompt sampleStoreC5 "a" true).favorites) ∧
    deletePrompt sampleStoreC5 "zzz" true = sampleStoreC5 := by
  refine ⟨⟨?_, ?_⟩, ?_⟩
  · exact ((deletePrompt_spec sampleStoreC5 "a").1 (by decide) (by decide)).1
  · exact ((deletePrompt_spec sampleStoreC5 "a").1 (by decide) (by decide)).2.2.1
  · exact (deletePrompt_spec sampleStoreC5 "zzz").2 (by decide) true

/-- Claim C6 — `StorageManager.createBackup`: the stored list never exceeds
five snapshots, the new snapshot sits first, and a list already holding five
snapshots keeps exactly five, the oldest being evicted. -/
theorem createBackup_spec (st : StorageManager) (ts : String)
    (backups : List Backup) :
    (st.createBackup ts backups).length ≤ 5 ∧
    (st.createBackup ts backups).head? = some (mkBackup st ts) ∧
    (backups.length = 5 →
      (st.createBackup ts backups).length = 5 ∧
      st.createBackup ts backups = mkBackup st ts :: backups.take 4) := by
  have hmb : MAX_BACKUPS = 4 + 1 := rfl
  refine ⟨?_, ?_, ?_⟩
  · rw [StorageManager.createBackup]
    simp [MAX_BACKUPS]
  · rw [StorageManager.createBackup, hmb, List.take_succ_cons]
    rfl
  · intro h5
    rw [StorageManager.createBackup, hmb, List.take_succ_cons]
    simp [List.length_take, h5]

/-- Witness for C6: a sixth backup on top of five existing snapshots keeps
exactly five, newest first. -/
theorem createBackup_spec_witness :
    (emptyStore.createBackup "t6" sampleBackups5).length = 5 ∧
    (emptyStore.createBackup "t6" sampleBackups5).head? =
      some (mkBackup emptyStore "t6") := by
  exact ⟨((createBackup_spec emptyStore "t6" sampleBackups5).2.2 (by decide)).1,
    (createBackup_spec emptyStore "t6" sampleBackups5).2.1⟩

/-- Claim C7 — `StorageManager.restoreFromBackup`: an out-of-range index
yields the failure flag `false` (the internal throw is caught, nothing
escapes) and leaves the collections untouched. -/
theorem restoreFromBackup_out_of_range (st : StorageManager)
    (backups : List Backup) (idx : Nat) (gen : Nat → String) (today : String)
    (h : backups.length ≤ idx) :
    (st.restoreFromBackup backups idx gen today).1 = false ∧
    (st.restoreFromBackup backups idx gen today).2 = st := by
  have hn : backups.get? idx = none := by
    simpa [List.get?_eq_getElem?] using List.getElem?_eq_none h
  rw [StorageManager.restoreFromBackup, hn]
  exact ⟨rfl, rfl⟩

/-- Witness for C7 at a concrete one-element backup list and index 3. -/
theorem restoreFromBackup_out_of_range_witness :
    (emptyStore.restoreFromBackup [mkBackup emptyStore "t1"] 3
        (fun _ => "g") "2024-01-01").1 = false := by
  exact (restoreFromBackup_out_of_range emptyStore [mkBackup emptyStore "t1"] 3
    (fun _ => "g") "2024-01-01" (by decide)).1

/-- Claim C9 — `Prompt.update` frame: the identifier and creation date are
untouched by the assignment phase (even when the input carries `id`, `created`
or `modified` properties — those are outside the allow-list and ignored), the
modified date is set to the current date, every allow-listed property present
in the input is copied, and every absent one keeps its prior value. -/
theorem update_allowlist_frame (p : Prompt) (d : PromptData) (today : String) :
    (applyUpdate p d today).id = p.id ∧
    (applyUpdate p d today).created = p.created ∧
    (applyUpdate p d today).modified = today ∧
    (d.title = none → (applyUpdate p d today).title = p.title) ∧
    (∀ v, d.title = some v → (applyUpdate p d today).title = v) ∧
    (d.type = none → (applyUpdate p d today).type = p.type) ∧
    (∀ v, d.type = some v → (applyUpdate p d today).type = v) ∧
    (d.prompt = none → (applyUpdate p d today).prompt = p.prompt) ∧
    (∀ v, d.prompt = some v → (applyUpdate p d today).prompt = v) ∧
    (d.negative_prompt = none →
      (applyUpdate p d today).negative_prompt = p.negative_prompt) ∧
    (∀ v, d.negative_prompt = some v →
      (applyUpdate p d today).negative_prompt = v) ∧
    (d.model = none → (applyUpdate p d today).model = p.model) ∧
    (∀ v, d.model = some v → (applyUpdate p d today).model = v) ∧
    (d.author = none → (applyUpdate p d today).author = p.author) ∧
    (∀ v, d.author = some v → (applyUpdate p d today).author = v) ∧
    (d.tags = none → (applyUpdate p d today).tags = p.tags) ∧
    (∀ v, d.tags = some v → (applyUpdate p d today).tags = v) ∧
    (d.notes = none → (applyUpdate p d today).notes = p.notes) ∧
    (∀ v, d.notes = some v → (applyUpdate p d today).notes = v) ∧
    (d.version = none → (applyUpdate p d today).version = p.version) ∧
    (∀ v, d.version = some v → (applyUpdate p d today).version = v) ∧
    (d.category = none → (applyUpdate p d today).category = p.category) ∧
    (∀ v, d.category = some v → (applyUpdate p d today).category = v) ∧
    (d.isFavorite = none → (applyUpdate p d today).isFavorite = p.isFavorite) ∧
    (∀ v, d.isFavorite = some v → (applyUpdate p d today).isFavorite = v) := by
  refine ⟨rfl, rfl, rfl, ?_, ?_, ?_, ?_, ?_, ?_, ?_, ?_, ?_, ?_, ?_, ?_, ?_,
    ?_, ?_, ?_, ?_, ?_, ?_, ?_, ?_, ?_⟩ <;>
    first
      | (intro h; simp [applyUpdate, h])
      | (intro v h; simp [applyUpdate, h])

/-- Witness for C9: the present `title` is applied, the absent `notes` keeps
its prior value, and the `id`/`created` properties of the input are ignored. -/
theorem update_allowlist_frame_witness :
    (applyUpdate (samplePrompt "p1" "Old" "" false) sampleUpdateC9 "2024-03-03").id = "p1" ∧
    (applyUpdate (samplePrompt "p1" "Old" "" false) sampleUpdateC9 "2024-03-03").created
      = "2024-01-01" ∧
    (applyUpdate (samplePrompt "p1" "Old" "" false) sampleUpdateC9 "2024-03-03").modified
      = "2024-03-03" ∧
    (applyUpdate (samplePrompt "p1" "Old" "" false) sampleUpdateC9 "2024-03-03").title
      = "New title" ∧
    (applyUpdate (samplePrompt "p1" "Old" "" false) sampleUpdateC9 "2024-03-03").notes
      = "" := by
  refine ⟨(update_allowlist_frame (samplePrompt "p1" "Old" "" false) sampleUpdateC9 "2024-03-03").1,
    (update_allowlist_frame (samplePrompt "p1" "Old" "" false) sampleUpdateC9 "2024-03-03").2.1,
    (update_allowlist_frame (samplePrompt "p1" "Old" "" false) sampleUpdateC9 "2024-03-03").2.2.1,
    (update_allowlist_frame (samplePrompt "p1" "Old" "" false) sampleUpdateC9
      "2024-03-03").2.2.2.2.1 "New title" rfl,
    (update_allowlist_frame (samplePrompt "p1" "Old" "" false) sampleUpdateC9
      "2024-03-03").2.2.2.2.2.2.2.2.2.2.2.2.2.2.2.2.2.1 rfl⟩

/-- Claim C10 — a failing `update` is not atomic: `update` assigns the
allow-listed values and refreshes the modified date before re-validating, so
even when the call raises a validation error (`snd ≠ none`), the record is
left holding the new title and the refreshed modified date. -/
theorem update_not_atomic (p : Prompt) (d : PromptData) (today v : String)
    (hv : d.title = some v) (hfail : (p.update d today).2 ≠ none) :
    (p.update d today).1.title = v ∧ (p.update d today).1.modified = today := by
  have h1 : (p.update d today).1 = applyUpdate p d today := by
    rw [Prompt.update]
    cases (applyUpdate p d today).validate <;> rfl
  rw [h1]
  exact ⟨by simp [applyUpdate, hv], rfl⟩

/-- Witness for C10: blanking the title makes re-validation fail, yet the
returned record state carries the blank title and the refreshed date. -/
theorem update_not_atomic_witness :
    ((samplePrompt "p1" "Old" "" false).update
        { PromptData.empty with title := some "" } "2024-05-05").2 ≠ none ∧
    ((samplePrompt "p1" "Old" "" false).update
        { PromptData.empty with title := some "" } "2024-05-05").1.title = "" ∧
    ((samplePrompt "p1" "Old" "" false).update
        { PromptData.empty with title := some "" } "2024-05-05").1.modified
      = "2024-05-05" := by
  refine ⟨by decide, ?_, ?_⟩
  · exact (update_not_atomic (samplePrompt "p1" "Old" "" false)
      { PromptData.empty with title := some "" } "2024-05-05" "" rfl (by decide)).1
  · exact (update_not_atomic (samplePrompt "p1" "Old" "" false)
      { PromptData.empty with title := some "" } "2024-05-05" "" rfl (by decide)).2

set_option maxHeartbeats 1000000

/-- Claim C8, amended — `Prompt.getSearchRelevance` equals the weighted
formula of the spec for every query whose trimmed form is non-empty (a query
that is empty or all-whitespace scores 0 instead, see the counterexample). -/
theorem getSearchRelevance_formula_amended (p : Prompt) (q : String)
    (h : jsTrim q ≠ "") :
    p.getSearchRelevance q = specRelevanceScore p q := by
  have hqe : q ≠ "" := by
    intro hq
    exact h (by rw [hq]; rfl)
  have hq : (q == "") = false := by simpa using hqe
  have hq2 : (jsTrim q == "") = false := by simpa using h
  have hqt : q.toList ≠ [] := by
    intro hd
    apply hqe
    cases q
    simp_all [String.toList]
  have hst : (jsToLower q).toList ≠ [] := by
    simp only [jsToLower, String.toList]
    intro hh
    exact hqt (List.map_eq_nil_iff.mp hh)
  have hignore : ∀ f : String,
      (!(f == "") && jsIncludes (jsToLower f) (jsToLower q))
        = jsIncludes (jsToLower f) (jsToLower q) := by
    intro f
    by_cases hf : f = ""
    · subst hf
      have hz : jsIncludes (jsToLower "") (jsToLower q) = false := by
        show listIsInfixOf (jsToLower q).toList [] = false
        cases hcase : (jsToLower q).toList with
        | nil => exact absurd hcase hst
        | cons a l => simp [listIsInfixOf, hcase]
      simp [hz]
    · simp [hf]
  rw [Prompt.getSearchRelevance, specRelevanceScore]
  rw [if_neg (by simp [hq, hq2])]
  simp only [List.foldl, hignore]
  split_ifs <;> simp [Nat.min_comm]

/-- Counterexample to claim C8 as stated: the query `" "` is non-empty, and
the claimed formula gives 50 for a title containing a space, but
`getSearchRelevance` returns 0 because it first rejects queries that trim to
the empty string. -/
theorem getSearchRelevance_claim_counterexample :
    samplePromptC8.getSearchRelevance " " = 0 ∧
    specRelevanceScore samplePromptC8 " " = 50 := by
  exact ⟨by decide, by decide⟩

/-- Witness for the amended C8 on a concrete record and query. -/
theorem getSearchRelevance_formula_amended_witness :
    (samplePrompt "p1" "Title" "" false).getSearchRelevance "tit"
      = specRelevanceScore (samplePrompt "p1" "Title" "" false) "tit" ∧
    (samplePrompt "p1" "Title" "" false).getSearchRelevance "tit" = 75 := by
  exact ⟨getSearchRelevance_formula_amended (samplePrompt "p1" "Title" "" false)
    "tit" (by decide), by decide⟩

theorem if_singleton_eq_nil {c : Prop} [inst : Decidable c] {a : String} :
    (if c then [a] else []) = [] ↔ ¬c := by
  split <;> simp_all

/-- `validate` collects no error exactly when every constraint of the rule set
holds. -/
theorem validate_eq_nil_iff (p : Prompt) :
    p.validate = [] ↔
      ((¬p.title = "" ∧ ¬jsTrim p.title = "") ∧
       (¬p.type = "" ∧ ¬jsTrim p.type = "") ∧
       (¬p.prompt = "" ∧ ¬jsTrim p.prompt = "") ∧
       p.type ∈ TYPES ∧
       (¬p.title = "" → p.title.length ≤ 200) ∧
       (¬p.prompt = "" → p.prompt.length ≤ 10000) ∧
       p.tags.length ≤ 20 ∧
       (¬p.version = "" → versionOk p.version = true) ∧
       (¬p.created = "" → isValidDate p.created = true) ∧
       (¬p.modified = "" → isValidDate p.modified = true)) := by
  rw [Prompt.validate]
  simp [List.append_eq_nil, if_singleton_eq_nil]

theorem strOr_some_empty_default (v : String) : strOr (some v) "" = v := by
  by_cases h : v = "" <;> simp [strOr, h]

theorem strOr_some_of_ne (v d : String) (h : ¬v = "") : strOr (some v) d = v := by
  simp [strOr, h]

/-- A string whose `trim` is empty consists of whitespace only. -/
theorem jsTrim_eq_empty (s : String) (h : jsTrim s = "") :
    ∀ c ∈ s.toList, c.isWhitespace := by
  have hl : ((s.toList.dropWhile Char.isWhitespace).reverse.dropWhile
      Char.isWhitespace).reverse = [] := by
    have := congrArg String.data h
    simpa [jsTrim] using this
  rw [List.reverse_eq_nil_iff, List.dropWhile_eq_nil_iff] at hl
  have hdrop : ∀ c ∈ s.toList.dropWhile Char.isWhitespace, c.isWhitespace := by
    intro c hc
    exact hl c (List.mem_reverse.mpr hc)
  intro c hc
  rw [← List.takeWhile_append_dropWhile (p := Char.isWhitespace) (l := s.toList)] at hc
  rcases List.mem_append.mp hc with hc | hc
  · exact List.mem_takeWhile_imp hc
  · exact hdrop c hc

/-- Claim C3, amended — `Prompt.clone` on a valid record whose title leaves
room for the 7-character copy marker (and whose version and dates are
non-empty, so the constructor defaults do not fire) yields a record that
differs from the original exactly in its fresh identifier and suffixed title;
a valid record with a longer title makes `clone` throw instead (see the
counterexample). -/
theorem clone_amended (p : Prompt) (freshId today : String)
    (hval : p.validate = []) (hlen : p.title.length ≤ 193)
    (hver : ¬p.version = "") (hcr : ¬p.created = "") (hmo : ¬p.modified = "")
    (hid : ¬freshId = p.id) :
    p.clone freshId today
      = .ok { p with id := freshId, title := p.title ++ " (Copy)" } ∧
    ¬({ p with id := freshId, title := p.title ++ " (Copy)" } : Prompt).id = p.id := by
  obtain ⟨⟨ht1, ht2⟩, ⟨hty1, hty2⟩, ⟨hp1, hp2⟩, htype, _, hplen, htags, hverok,
    hcrok, hmook⟩ := (validate_eq_nil_iff p).mp hval
  have hraw : mkPromptRaw freshId today
      { p.toObject with id := none, title := some (p.title ++ " (Copy)") }
      = { p with id := freshId, title := p.title ++ " (Copy)" } := by
    simp [mkPromptRaw, Prompt.toObject, strOr_some_empty_default,
      strOr_some_of_ne, hty1, hver, hcr, hmo, strOr]
    exact ⟨fun h => h.symm, fun h => h.symm, fun h => h.symm, fun h => h.symm,
      fun h => h.symm, fun h => h.symm, fun h => h.symm⟩
  have hvc : ({ p with id := freshId, title := p.title ++ " (Copy)" } : Prompt).validate
      = [] := by
    apply (validate_eq_nil_iff _).mpr
    refine ⟨⟨?_, ?_⟩, ⟨hty1, hty2⟩, ⟨hp1, hp2⟩, htype, ?_, hplen, htags, hverok,
      hcrok, hmook⟩
    · intro hh
      have hlen0 := congrArg String.length hh
      rw [String.length_append] at hlen0
      have h7 : (" (Copy)" : String).length = 7 := rfl
      have h0 : ("" : String).length = 0 := rfl
      omega
    · intro hh
      have hws := jsTrim_eq_empty _ hh
      have hmem : (')' : Char) ∈ (p.title ++ " (Copy)").toList := by
        have : (p.title ++ " (Copy)").data = p.title.data ++ (" (Copy)" : String).data :=
          String.data_append p.title " (Copy)"
        rw [String.toList, this]
        exact List.mem_append_right _ (by decide)
      have := hws _ hmem
      simp at this
    · intro _
      rw [String.length_append]
      have h7 : (" (Copy)" : String).length = 7 := rfl
      omega
  constructor
  · rw [Prompt.clone]
    simp only [mkPrompt]
    rw [hraw, hvc]
  · exact hid

/-- Counterexample to claim C3 as stated: on a valid record whose title is
exactly 200 characters, `clone` does not produce a record at all — the
suffixed 207-character title fails re-validation and the constructor throws. -/
theorem clone_claim_counterexample :
    samplePromptC3.clone "idX" "2024-03-03"
      = .error "Validation failed: Title must be 200 characters or less" := by
  rfl

/-- Witness for the amended C3 on a concrete record. -/
theorem clone_amended_witness :
    (samplePrompt "p1" "Title" "general" true).clone "fresh9" "2024-03-03"
      = .ok { samplePrompt "p1" "Title" "general" true with
              id := "fresh9", title := "Title (Copy)" } := by
  exact (clone_amended (samplePrompt "p1" "Title" "general" true) "fresh9"
    "2024-03-03" (by decide) (by decide) (by decide) (by decide) (by decide)
    (by decide)).1

theorem lookup_eq_none_of_keys {β : Type} (k : String) (l : List (String × β))
    (h : ∀ kv ∈ l, kv.1 ≠ k) : l.lookup k = none := by
  induction l with
  | nil => rfl
  | cons hd tl ih =>
    obtain ⟨k', v'⟩ := hd
    have hk : ¬k = k' := fun hh => (h (k', v') (by simp)) hh.symm
    have hbk : (k == k') = false := by simpa using hk
    simp only [List.lookup, hbk]
    exact ih (fun kv hm => h kv (List.mem_cons_of_mem _ hm))

/-- Looking a key up in the empty-value-dropping filter of an association
list with distinct keys: find the entry first, then apply the value filter. -/
theorem lookup_filter_val (k : String) (l : List (String × YVal))
    (hnd : (l.map Prod.fst).Nodup) :
    (l.filter (fun kv => !kv.2.isEmptyVal)).lookup k
      = (l.lookup k).bind (fun v => if !v.isEmptyVal then some v else none) := by
  induction l with
  | nil => rfl
  | cons hd tl ih =>
    obtain ⟨k', v'⟩ := hd
    rw [List.map_cons, List.nodup_cons] at hnd
    by_cases hk : k = k'
    · subst hk
      rw [List.filter_cons]
      by_cases hq : (!v'.isEmptyVal) = true
      · have hq' : v'.isEmptyVal = false := by simpa using hq
        simp [List.lookup, hq']
      · have hq' : v'.isEmptyVal = true := by simpa using hq
        have hnone : tl.lookup k = none := by
          apply lookup_eq_none_of_keys
          intro kv hm hh
          have hmm : kv.1 ∈ List.map Prod.fst tl := List.mem_map_of_mem Prod.fst hm
          rw [hh] at hmm
          exact hnd.1 hmm
        rw [if_neg hq, ih hnd.2, hnone, List.lookup]
        simp [hq']
    · have hbk : (k == k') = false := by simpa using hk
      rw [List.filter_cons]
      by_cases hq : (!v'.isEmptyVal) = true
      · rw [if_pos hq]
        simp only [List.lookup, hbk]
        exact ih hnd.2
      · rw [if_neg hq, ih hnd.2]
        simp only [List.lookup, hbk]

/-- The serialized entry list has pairwise distinct keys. -/
theorem yamlFields_keys_nodup (p : Prompt) :
    (p.yamlFields.map Prod.fst).Nodup := by
  have he : p.yamlFields.map Prod.fst
      = ["title", "type", "prompt", "negative_prompt", "model", "author",
         "tags", "notes", "version", "created", "modified"] := rfl
  rw [he]
  decide

/-- Looking a key up in the serialized form: find the field entry, then drop
it if its value is empty. -/
theorem lookup_toYAML (p : Prompt) (k : String) :
    (p.toYAML).lookup k
      = (p.yamlFields.lookup k).bind
          (fun v => if !v.isEmptyVal then some v else none) :=
  lookup_filter_val k p.yamlFields (yamlFields_keys_nodup p)

/-- Claim C1, amended — serializing with `toYAML` and parsing back with
`fromYAML` restores all eleven serialized fields exactly (empty optional
fields, though omitted, deserialize back to their empty defaults) for every
valid record whose version and dates are non-empty; but the identifier is
regenerated and the category and favorite flag — never serialized — are reset
to their defaults, so the result is not field-for-field identical (see the
counterexample). -/
theorem toYAML_fromYAML_roundtrip_amended (p : Prompt) (freshId today : String)
    (hval : p.validate = []) (hver : ¬p.version = "") (hcr : ¬p.created = "")
    (hmo : ¬p.modified = "") :
    Prompt.fromYAML p.toYAML freshId today
      = .ok { p with id := freshId, category := "", isFavorite := false } := by
  obtain ⟨⟨ht1, _⟩, ⟨hty1, _⟩, ⟨hp1, _⟩, _, _, _, _, _, _, _⟩ :=
    (validate_eq_nil_iff p).mp hval
  have fid : lookupStr p.toYAML "id" = none := by
    rw [lookupStr, lookup_toYAML]
    rfl
  have fcat : lookupStr p.toYAML "category" = none := by
    rw [lookupStr, lookup_toYAML]
    rfl
  have ffav : lookupBool p.toYAML "isFavorite" = none := by
    rw [lookupBool, lookup_toYAML]
    rfl
  have ftitle : lookupStr p.toYAML "title" = some p.title := by
    rw [lookupStr, lookup_toYAML]
    simp [Prompt.yamlFields, List.lookup, YVal.isEmptyVal, ht1]
  have ftype : lookupStr p.toYAML "type" = some p.type := by
    rw [lookupStr, lookup_toYAML]
    simp [Prompt.yamlFields, List.lookup, YVal.isEmptyVal, hty1]
  have fprompt : lookupStr p.toYAML "prompt" = some p.prompt := by
    rw [lookupStr, lookup_toYAML]
    simp [Prompt.yamlFields, List.lookup, YVal.isEmptyVal, hp1]
  have fver : lookupStr p.toYAML "version" = some p.version := by
    rw [lookupStr, lookup_toYAML]
    simp [Prompt.yamlFields, List.lookup, YVal.isEmptyVal, hver]
  have fcr : lookupStr p.toYAML "created" = some p.created := by
    rw [lookupStr, lookup_toYAML]
    simp [Prompt.yamlFields, List.lookup, YVal.isEmptyVal, hcr]
  have fmo : lookupStr p.toYAML "modified" = some p.modified := by
    rw [lookupStr, lookup_toYAML]
    simp [Prompt.yamlFields, List.lookup, YVal.isEmptyVal, hmo]
  have fneg : strOr (lookupStr p.toYAML "negative_prompt") "" = p.negative_prompt := by
    rw [lookupStr, lookup_toYAML]
    by_cases hx : p.negative_prompt = ""
    · simp [Prompt.yamlFields, List.lookup, YVal.isEmptyVal, hx, strOr]
    · simp [Prompt.yamlFields, List.lookup, YVal.isEmptyVal, hx, strOr_some_empty_default]
  have fmodel : strOr (lookupStr p.toYAML "model") "" = p.model := by
    rw [lookupStr, lookup_toYAML]
    by_cases hx : p.model = ""
    · simp [Prompt.yamlFields, List.lookup, YVal.isEmptyVal, hx, strOr]
    · simp [Prompt.yamlFields, List.lookup, YVal.isEmptyVal, hx, strOr_some_empty_default]
  have fauthor : strOr (lookupStr p.toYAML "author") "" = p.author := by
    rw [lookupStr, lookup_toYAML]
    by_cases hx : p.author = ""
    · simp [Prompt.yamlFields, List.lookup, YVal.isEmptyVal, hx, strOr]
    · simp [Prompt.yamlFields, List.lookup, YVal.isEmptyVal, hx, strOr_some_empty_default]
  have fnotes : strOr (lookupStr p.toYAML "notes") "" = p.notes := by
    rw [lookupStr, lookup_toYAML]
    by_cases hx : p.notes = ""
    · simp [Prompt.yamlFields, List.lookup, YVal.isEmptyVal, hx, strOr]
    · simp [Prompt.yamlFields, List.lookup, YVal.isEmptyVal, hx, strOr_some_empty_default]
  have ftags : (lookupArr p.toYAML "tags").getD [] = p.tags := by
    rw [lookupArr, lookup_toYAML]
    by_cases hx : p.tags = []
    · simp [Prompt.yamlFields, List.lookup, YVal.isEmptyVal, hx]
    · simp [Prompt.yamlFields, List.lookup, YVal.isEmptyVal, hx]
  have hraw : mkPromptRaw freshId today (yamlToData p.toYAML)
      = { p with id := freshId, category := "", isFavorite := false } := by
    simp only [mkPromptRaw, yamlToData]
    rw [fid, fcat, ffav, ftitle, ftype, fprompt, fver, fcr, fmo]
    rw [fneg, fmodel, fauthor, fnotes, ftags]
    rw [strOr_some_empty_default, strOr_some_of_ne _ _ hty1,
      strOr_some_empty_default, strOr_some_of_ne _ _ hver,
      strOr_some_of_ne _ _ hcr, strOr_some_of_ne _ _ hmo]
    rfl
  have hvt : ({ p with id := freshId, category := "", isFavorite := false } : Prompt).validate
      = p.validate := rfl
  rw [Prompt.fromYAML]
  simp only [mkPrompt]
  rw [hraw, hvt, hval]

/-- Counterexample to claim C1 as stated: on a concrete record with category
`general` and favorite flag set, the `toYAML`/`fromYAML` round trip resets the
category to the empty string and the favorite flag to false — these fields are
never serialized at all, non-empty or not. -/
theorem toYAML_fromYAML_claim_counterexample :
    (Prompt.fromYAML (samplePrompt "p1" "Title" "general" true).toYAML
        "fresh1" "2024-02-02").map Prompt.category = .ok "" ∧
    (samplePrompt "p1" "Title" "general" true).category = "general" ∧
    (Prompt.fromYAML (samplePrompt "p1" "Title" "general" true).toYAML
        "fresh1" "2024-02-02").map Prompt.isFavorite = .ok false ∧
    (samplePrompt "p1" "Title" "general" true).isFavorite = true := by
  exact ⟨rfl, rfl, rfl, rfl⟩

/-- Witness for the amended C1 on a concrete record. -/
theorem toYAML_fromYAML_roundtrip_amended_witness :
    Prompt.fromYAML (samplePrompt "p1" "Title" "general" true).toYAML
        "fresh1" "2024-02-02"
      = .ok { samplePrompt "p1" "Title" "general" true with
              id := "fresh1", category := "", isFavorite := false } := by
  exact toYAML_fromYAML_roundtrip_amended (samplePrompt "p1" "Title" "general" true)
    "fresh1" "2024-02-02" (by decide) (by decide) (by decide) (by decide)

theorem mapSet_of_not_mem {α : Type} (l : List (String × α)) (k : String) (v : α)
    (h : l.any (fun kv => kv.1 == k) = false) : mapSet l k v = l ++ [(k, v)] := by
  simp [mapSet, h]

theorem lookup_append_left_of_mem {α : Type} (k : String) (l l2 : List (String × α))
    (h : k ∈ l.map Prod.fst) : (l ++ l2).lookup k = l.lookup k := by
  induction l with
  | nil => simp at h
  | cons hd tl ih =>
    obtain ⟨k', v'⟩ := hd
    by_cases hk : k = k'
    · subst hk
      simp [List.lookup]
    · have hbk : (k == k') = false := by simpa using hk
      simp only [List.cons_append, List.lookup, hbk]
      apply ih
      simp only [List.map_cons, List.mem_cons] at h
      rcases h with h | h
      · exact absurd h hk
      · exact h

theorem lookup_append_self_of_not_mem {α : Type} (k : String) (v : α)
    (l : List (String × α)) (h : k ∉ l.map Prod.fst) :
    (l ++ [(k, v)]).lookup k = some v := by
  induction l with
  | nil => simp [List.lookup]
  | cons hd tl ih =>
    obtain ⟨k', v'⟩ := hd
    simp only [List.map_cons, List.mem_cons] at h
    push_neg at h
    have hbk : (k == k') = false := by simpa using h.1
    simp only [List.cons_append, List.lookup, hbk]
    exact ih h.2

theorem any_key_iff_mem {α : Type} (k : String) (l : List (String × α)) :
    l.any (fun kv => kv.1 == k) = true ↔ k ∈ l.map Prod.fst := by
  simp only [List.any_eq_true, List.mem_map, beq_iff_eq]

/-- Each incoming record of an import run is accounted exactly once: as
imported, as skipped, or as an error message. -/
theorem importGo_count (gen : Nat → String) (today : String) (merge : Bool) :
    ∀ (ds : List PromptData) (i : Nat) (pm : List (String × Prompt))
      (res : ImportResult),
      (importPromptsGo gen today merge i pm res ds).2.imported
        + (importPromptsGo gen today merge i pm res ds).2.skipped
        + (importPromptsGo gen today merge i pm res ds).2.errors.length
        = res.imported + res.skipped + res.errors.length + ds.length := by
  intro ds
  induction ds with
  | nil =>
    intro i pm res
    simp [importPromptsGo]
  | cons d ds ih =>
    intro i pm res
    cases hmk : mkPrompt (gen i) today d with
    | error e =>
      simp only [importPromptsGo, hmk]
      rw [ih]
      simp
      omega
    | ok p =>
      simp only [importPromptsGo, hmk]
      by_cases hc : (!merge || !(pm.any (fun kv => kv.1 == p.id))) = true
      · rw [if_pos hc, ih]
        simp
        omega
      · rw [if_neg hc, ih]
        simp
        omega

/-- A merge-mode import run never rebinds a key that is already present. -/
theorem importGo_preserved (gen : Nat → String) (today : String) :
    ∀ (ds : List PromptData) (i : Nat) (pm : List (String × Prompt))
      (res : ImportResult) (k : String), k ∈ pm.map Prod.fst →
      (importPromptsGo gen today true i pm res ds).1.lookup k = pm.lookup k ∧
      k ∈ (importPromptsGo gen today true i pm res ds).1.map Prod.fst := by
  intro ds
  induction ds with
  | nil =>
    intro i pm res k hk
    exact ⟨rfl, hk⟩
  | cons d ds ih =>
    intro i pm res k hk
    cases hmk : mkPrompt (gen i) today d with
    | error e =>
      simp only [importPromptsGo, hmk]
      exact ih (i + 1) pm _ k hk
    | ok p =>
      simp only [importPromptsGo, hmk]
      by_cases ha : pm.any (fun kv => kv.1 == p.id) = true
      · rw [if_neg (by simp [ha])]
        exact ih (i + 1) pm _ k hk
      · have haf : pm.any (fun kv => kv.1 == p.id) = false := eq_false_of_ne_true ha
        rw [if_pos (by simp [haf])]
        rw [mapSet_of_not_mem pm p.id p haf]
        have hk2 : k ∈ (pm ++ [(p.id, p)]).map Prod.fst := by
          rw [List.map_append]
          exact List.mem_append_left _ hk
        have := ih (i + 1) (pm ++ [(p.id, p)]) { res with imported := res.imported + 1 } k hk2
        rw [this.1, lookup_append_left_of_mem k pm _ hk]
        exact ⟨rfl, this.2⟩

/-- An import run only ever appends to the error list. -/
theorem importGo_errors (gen : Nat → String) (today : String) (merge : Bool) :
    ∀ (ds : List PromptData) (i : Nat) (pm : List (String × Prompt))
      (res : ImportResult), ∃ tail,
      (importPromptsGo gen today merge i pm res ds).2.errors = res.errors ++ tail := by
  intro ds
  induction ds with
  | nil =>
    intro i pm res
    exact ⟨[], by simp [importPromptsGo]⟩
  | cons d ds ih =>
    intro i pm res
    cases hmk : mkPrompt (gen i) today d with
    | error e =>
      obtain ⟨tail, htail⟩ := ih (i + 1) pm
        { res with errors := res.errors ++ ["Failed to import prompt: " ++ e] }
      refine ⟨("Failed to import prompt: " ++ e) :: tail, ?_⟩
      simp only [importPromptsGo, hmk]
      rw [htail]
      simp
    | ok p =>
      by_cases hc : (!merge || !(pm.any (fun kv => kv.1 == p.id))) = true
      · obtain ⟨tail, htail⟩ := ih (i + 1) (mapSet pm p.id p)
          { res with imported := res.imported + 1 }
        refine ⟨tail, ?_⟩
        simp only [importPromptsGo, hmk]
        rw [if_pos hc, htail]
      · obtain ⟨tail, htail⟩ := ih (i + 1) pm { res with skipped := res.skipped + 1 }
        refine ⟨tail, ?_⟩
        simp only [importPromptsGo, hmk]
        rw [if_neg hc, htail]

/-- Processing a concatenated payload is processing the first part and then
the second from the reached state. -/
theorem importGo_append (gen : Nat → String) (today : String) (merge : Bool) :
    ∀ (ds1 ds2 : List PromptData) (i : Nat) (pm : List (String × Prompt))
      (res : ImportResult),
      importPromptsGo gen today merge i pm res (ds1 ++ ds2)
        = importPromptsGo gen today merge (i + ds1.length)
            (importPromptsGo gen today merge i pm res ds1).1
            (importPromptsGo gen today merge i pm res ds1).2 ds2 := by
  intro ds1
  induction ds1 with
  | nil =>
    intro ds2 i pm res
    simp [importPromptsGo]
  | cons d ds1 ih =>
    intro ds2 i pm res
    have hidx : i + (d :: ds1).length = (i + 1) + ds1.length := by
      simp [List.length_cons]
      omega
    rw [hidx]
    cases hmk : mkPrompt (gen i) today d with
    | error e =>
      simp only [List.cons_append, importPromptsGo, hmk, List.append_eq]
      rw [ih]
    | ok p =>
      by_cases hc : (!merge || !(pm.any (fun kv => kv.1 == p.id))) = true
      · simp only [List.cons_append, importPromptsGo, hmk, List.append_eq]
        rw [if_pos hc, if_pos hc, ih]
      · simp only [List.cons_append, importPromptsGo, hmk, List.append_eq]
        rw [if_neg hc, if_neg hc, ih]

/-- The summary a merge-mode run returns is exactly the per-record
classification process over the identifiers present so far. -/
theorem importGo_eq_mergeImportSpec (gen : Nat → String) (today : String) :
    ∀ (ds : List PromptData) (i : Nat) (pm : List (String × Prompt))
      (res : ImportResult),
      (importPromptsGo gen today true i pm res ds).2
        = ⟨res.imported + (mergeImportSpec gen today i (pm.map Prod.fst) ds).imported,
           res.skipped + (mergeImportSpec gen today i (pm.map Prod.fst) ds).skipped,
           res.errors ++ (mergeImportSpec gen today i (pm.map Prod.fst) ds).errors⟩ := by
  intro ds
  induction ds with
  | nil =>
    intro i pm res
    simp [importPromptsGo, mergeImportSpec]
  | cons d ds ih =>
    intro i pm res
    cases hmk : mkPrompt (gen i) today d with
    | error e =>
      simp only [importPromptsGo, mergeImportSpec, hmk]
      rw [ih]
      simp
    | ok p =>
      by_cases hmem : p.id ∈ pm.map Prod.fst
      · have ha : pm.any (fun kv => kv.1 == p.id) = true :=
          (any_key_iff_mem _ _).mpr hmem
        simp only [importPromptsGo, mergeImportSpec, hmk]
        rw [if_neg (by simp [ha]), if_pos hmem, ih]
        simp [ImportResult.mk.injEq]
        omega
      · have ha : pm.any (fun kv => kv.1 == p.id) = false :=
          eq_false_of_ne_true (fun hh => hmem ((any_key_iff_mem _ _).mp hh))
        simp only [importPromptsGo, mergeImportSpec, hmk]
        rw [if_pos (by simp [ha]), if_neg hmem, ih,
          mapSet_of_not_mem _ _ _ ha, List.map_append]
        simp [ImportResult.mk.injEq]
        omega

/-- Claim C4 — `StorageManager.importData` with `merge = true`: (1) every
incoming record is counted exactly once across the imported count, the
skipped count and the per-record error list, so an individual invalid record
does not abort the import; (2) every existing record is left unchanged;
(3) a single incoming record colliding with an existing identifier yields
`skipped = 1` and an unchanged prompt map; (4) a single incoming record with
a fresh identifier yields `imported = 1` and is added under its identifier;
(5) an invalid leading record contributes its error message as the first
entry of the returned error list while the rest is still processed;
(6) for an arbitrary payload, the returned summary equals the per-record
classification process `mergeImportSpec` — each incoming record, in order,
is counted as an error if it fails to construct, as skipped if its
identifier is already present when it is processed, and as imported if its
identifier is fresh; (7) for an arbitrary payload, each incoming record at
any position whose identifier is not present when it is processed ends up
bound to its identifier in the final prompt map. -/
theorem importData_merge_spec (st : StorageManager) (parsed : ParsedData)
    (gen : Nat → String) (today : String) :
    (∀ ds, parsed.prompts = some ds →
      (st.importData parsed true gen today).2.imported
        + (st.importData parsed true gen today).2.skipped
        + (st.importData parsed true gen today).2.errors.length = ds.length) ∧
    (∀ k, k ∈ st.prompts.map Prod.fst →
      (st.importData parsed true gen today).1.prompts.lookup k
        = st.prompts.lookup k) ∧
    (∀ d p, parsed.prompts = some [d] → mkPrompt (gen 0) today d = .ok p →
      p.id ∈ st.prompts.map Prod.fst →
      (st.importData parsed true gen today).2 = ⟨0, 1, []⟩ ∧
      (st.importData parsed true gen today).1.prompts = st.prompts) ∧
    (∀ d p, parsed.prompts = some [d] → mkPrompt (gen 0) today d = .ok p →
      p.id ∉ st.prompts.map Prod.fst →
      (st.importData parsed true gen today).2 = ⟨1, 0, []⟩ ∧
      (st.importData parsed true gen today).1.prompts.lookup p.id = some p) ∧
    (∀ d ds e, parsed.prompts = some (d :: ds) →
      mkPrompt (gen 0) today d = .error e →
      (st.importData parsed true gen today).2.errors.head?
        = some ("Failed to import prompt: " ++ e)) ∧
    (∀ ds, parsed.prompts = some ds →
      (st.importData parsed true gen today).2
        = mergeImportSpec gen today 0 (st.prompts.map Prod.fst) ds) ∧
    (∀ ds1 d ds2 p, parsed.prompts = some (ds1 ++ d :: ds2) →
      mkPrompt (gen ds1.length) today d = .ok p →
      p.id ∉ (importPromptsGo gen today true 0 st.prompts ⟨0, 0, []⟩ ds1).1.map
        Prod.fst →
      (st.importData parsed true gen today).1.prompts.lookup p.id = some p) := by
  refine ⟨?_, ?_, ?_, ?_, ?_, ?_, ?_⟩
  · intro ds hp
    simp only [StorageManager.importData, Bool.not_true, Bool.false_eq_true,
      if_false, hp]
    simpa using importGo_count gen today true ds 0 st.prompts ⟨0, 0, []⟩
  · intro k hk
    cases hp : parsed.prompts with
    | none =>
      simp [StorageManager.importData, hp]
    | some ds =>
      simp only [StorageManager.importData, Bool.not_true, Bool.false_eq_true,
        if_false, hp]
      exact (importGo_preserved gen today ds 0 st.prompts ⟨0, 0, []⟩ k hk).1
  · intro d p hp hmk hmem
    have ha : st.prompts.any (fun kv => kv.1 == p.id) = true :=
      (any_key_iff_mem p.id st.prompts).mpr hmem
    simp [StorageManager.importData, hp, importPromptsGo, hmk, ha]
  · intro d p hp hmk hmem
    have ha : st.prompts.any (fun kv => kv.1 == p.id) = false := by
      rcases hb : st.prompts.any (fun kv => kv.1 == p.id) with _ | _
      · rfl
      · exact absurd ((any_key_iff_mem p.id st.prompts).mp hb) hmem
    constructor
    · simp [StorageManager.importData, hp, importPromptsGo, hmk, ha]
    · simp only [StorageManager.importData, Bool.not_true, Bool.false_eq_true,
        if_false, hp, importPromptsGo, hmk, ha]
      rw [if_pos (by simp [ha])]
      simp only [importPromptsGo]
      rw [mapSet_of_not_mem st.prompts p.id p ha]
      exact lookup_append_self_of_not_mem p.id p st.prompts hmem
  · intro d ds e hp hmk
    simp only [StorageManager.importData, Bool.not_true, Bool.false_eq_true,
      if_false, hp, importPromptsGo, hmk, List.nil_append, Nat.zero_add]
    obtain ⟨tail, htail⟩ := importGo_errors gen today true ds 1 st.prompts
      ⟨0, 0, ["Failed to import prompt: " ++ e]⟩
    rw [htail]
    rfl
  · intro ds hp
    simp only [StorageManager.importData, Bool.not_true, Bool.false_eq_true,
      if_false, hp]
    rw [importGo_eq_mergeImportSpec gen today ds 0 st.prompts ⟨0, 0, []⟩]
    simp
  · intro ds1 d ds2 p hp hmk hfresh
    simp only [StorageManager.importData, Bool.not_true, Bool.false_eq_true,
      if_false, hp]
    rw [importGo_append gen today true ds1 (d :: ds2) 0 st.prompts ⟨0, 0, []⟩,
      Nat.zero_add]
    have ha : (importPromptsGo gen today true 0 st.prompts
        ⟨0, 0, []⟩ ds1).1.any (fun kv => kv.1 == p.id) = false :=
      eq_false_of_ne_true (fun hh => hfresh ((any_key_iff_mem _ _).mp hh))
    simp only [importPromptsGo, hmk]
    rw [if_pos (by simp [ha]), mapSet_of_not_mem _ _ _ ha]
    have hk2 : p.id ∈ ((importPromptsGo gen today true 0 st.prompts
        ⟨0, 0, []⟩ ds1).1 ++ [(p.id, p)]).map Prod.fst := by
      rw [List.map_append]
      simp
    have hpres := importGo_preserved gen today ds2 (ds1.length + 1)
      ((importPromptsGo gen today true 0 st.prompts ⟨0, 0, []⟩ ds1).1 ++ [(p.id, p)])
      { (importPromptsGo gen today true 0 st.prompts ⟨0, 0, []⟩ ds1).2 with
        imported := (importPromptsGo gen today true 0 st.prompts
          ⟨0, 0, []⟩ ds1).2.imported + 1 } p.id hk2
    rw [hpres.1]
    exact lookup_append_self_of_not_mem p.id p _ hfresh

/-- Witness for C4: merging a two-record payload — one fresh identifier,
one colliding with an existing record — yields `imported = 1`, `skipped = 1`,
no errors; the fresh record is added under its identifier; and a
single-collision import leaves the prompt map unchanged with `skipped = 1`. -/
theorem importData_merge_spec_witness :
    (sampleStoreC5.importData sampleImportC4 true (fun _ => "g") "2024-06-06").2
      = ⟨0, 1, []⟩ ∧
    (sampleStoreC5.importData sampleImportC4 true (fun _ => "g") "2024-06-06").1.prompts
      = sampleStoreC5.prompts ∧
    (sampleStoreC5.importData sampleImportC4b true (fun _ => "g") "2024-06-06").2
      = ⟨1, 1, []⟩ ∧
    (sampleStoreC5.importData sampleImportC4b true
        (fun _ => "g") "2024-06-06").1.prompts.lookup "c"
      = some (samplePrompt "c" "New" "" false) := by
  refine ⟨?_, ?_, ?_, ?_⟩
  · exact ((importData_merge_spec sampleStoreC5 sampleImportC4 (fun _ => "g")
      "2024-06-06").2.2.1 ((samplePrompt "a" "Other" "" false).toObject)
      (samplePrompt "a" "Other" "" false) rfl rfl (by decide)).1
  · exact ((importData_merge_spec sampleStoreC5 sampleImportC4 (fun _ => "g")
      "2024-06-06").2.2.1 ((samplePrompt "a" "Other" "" false).toObject)
      (samplePrompt "a" "Other" "" false) rfl rfl (by decide)).2
  · rw [(importData_merge_spec sampleStoreC5 sampleImportC4b (fun _ => "g")
      "2024-06-06").2.2.2.2.2.1
      [(samplePrompt "c" "New" "" false).toObject,
       (samplePrompt "a" "Other" "" false).toObject] rfl]
    decide
  · exact (importData_merge_spec sampleStoreC5 sampleImportC4b (fun _ => "g")
      "2024-06-06").2.2.2.2.2.2 []
      ((samplePrompt "c" "New" "" false).toObject)
      [(samplePrompt "a" "Other" "" false).toObject]
      (samplePrompt "c" "New" "" false) rfl rfl (by decide)

theorem lookup_isSome_iff_mem_keys {α : Type} (k : String) (l : List (String × α)) :
    (l.lookup k).isSome = true ↔ k ∈ l.map Prod.fst := by
  induction l with
  | nil => simp [List.lookup]
  | cons hd tl ih =>
    obtain ⟨k', v'⟩ := hd
    by_cases hk : k = k'
    · subst hk
      simp [List.lookup]
    · have hbk : (k == k') = false := by simpa using hk
      simp only [List.lookup, hbk, List.map_cons, List.mem_cons]
      rw [ih]
      simp [hk]

theorem mem_of_lookup_eq_some {α : Type} {k : String} {v : α}
    {l : List (String × α)} (h : l.lookup k = some v) : (k, v) ∈ l := by
  induction l with
  | nil => simp [List.lookup] at h
  | cons hd tl ih =>
    obtain ⟨k', v'⟩ := hd
    by_cases hk : k = k'
    · subst hk
      simp only [List.lookup, beq_self_eq_true] at h
      cases h
      exact List.mem_cons_self _ _
    · have hbk : (k == k') = false := by simpa using hk
      simp only [List.lookup, hbk] at h
      exact List.mem_cons_of_mem _ (ih h)

theorem pushItem_keys (cats : List (String × CatNode)) (k : String) (p : Prompt) :
    (pushItem cats k p).map Prod.fst = cats.map Prod.fst := by
  induction cats with
  | nil => rfl
  | cons hd tl ih =>
    obtain ⟨k0, n0⟩ := hd
    by_cases h : k0 = k <;> simp [pushItem, h, ih]

theorem pushChild_keys (cats : List (String × CatNode)) (pk ck : String) :
    (pushChild cats pk ck).map Prod.fst = cats.map Prod.fst := by
  induction cats with
  | nil => rfl
  | cons hd tl ih =>
    obtain ⟨k0, n0⟩ := hd
    by_cases h : k0 = pk <;> simp [pushChild, h, ih]

theorem treeHasKey_eq_keys (t : Tree) (k : String) :
    treeHasKey t k = true ↔ k ∈ t.categories.map Prod.fst :=
  any_key_iff_mem k t.categories

theorem placePrompt_keys (t : Tree) (p : Prompt) :
    (placePrompt t p).categories.map Prod.fst = t.categories.map Prod.fst := by
  simp only [placePrompt]
  split_ifs <;> simp [pushItem_keys]

theorem placePrompt_treeHasKey (t : Tree) (p : Prompt) (k : String) :
    treeHasKey (placePrompt t p) k = treeHasKey t k := by
  cases h : treeHasKey t k with
  | true =>
    rw [treeHasKey_eq_keys, placePrompt_keys]
    exact (treeHasKey_eq_keys t k).mp h
  | false =>
    rcases h2 : treeHasKey (placePrompt t p) k with _ | _
    · rfl
    · have := (treeHasKey_eq_keys _ k).mp h2
      rw [placePrompt_keys] at this
      rw [← h]
      exact ((treeHasKey_eq_keys t k).mpr this).symm

theorem placePrompt_favorites (t : Tree) (p : Prompt) :
    (placePrompt t p).favorites
      = t.favorites ++ (if p.isFavorite then [p] else []) := by
  simp only [placePrompt]
  split_ifs <;> simp_all

theorem placePrompt_uncategorized (t : Tree) (p : Prompt) :
    (placePrompt t p).uncategorized
      = t.uncategorized ++
        (if !(treeHasKey t (resolvedCategory p))
            && (resolvedCategory p == "uncategorized") && !p.isFavorite
         then [p] else []) := by
  simp only [placePrompt, resolvedCategory, treeHasKey]
  split_ifs <;> simp_all <;>
    (rename_i hex hall
     obtain ⟨x, hx⟩ := hex
     first
       | exact hall _ _ hx rfl
       | exact hall.1 _ _ hx hall.2.symm)

theorem placePrompt_categories (t : Tree) (p : Prompt) :
    (placePrompt t p).categories
      = if treeHasKey t (resolvedCategory p)
        then pushItem t.categories (resolvedCategory p) p
        else t.categories := by
  simp only [placePrompt, resolvedCategory, treeHasKey]
  split_ifs <;> simp_all

theorem lookup_pushItem (cats : List (String × CatNode)) (k2 : String)
    (p : Prompt) (k : String) :
    (pushItem cats k2 p).lookup k
      = (cats.lookup k).map
          (fun n => if k = k2 then { n with items := n.items ++ [p] } else n) := by
  induction cats with
  | nil => rfl
  | cons hd tl ih =>
    obtain ⟨k0, n0⟩ := hd
    by_cases h0 : k0 = k2
    · subst h0
      have hh : pushItem ((k0, n0) :: tl) k0 p
          = (k0, { n0 with items := n0.items ++ [p] }) :: pushItem tl k0 p := by
        simp [pushItem]
      rw [hh]
      by_cases hk : k = k0
      · subst hk
        simp [List.lookup]
      · have hbk : (k == k0) = false := by simpa using hk
        simp [List.lookup, hbk, hk, ih]
    · have hh : pushItem ((k0, n0) :: tl) k2 p = (k0, n0) :: pushItem tl k2 p := by
        simp [pushItem, h0]
      rw [hh]
      by_cases hk : k = k0
      · subst hk
        simp [List.lookup, h0]
      · have hbk : (k == k0) = false := by simpa using hk
        simp [List.lookup, hbk, ih]

theorem itemsOf_placePrompt (t : Tree) (p : Prompt) (k : String) :
    (placePrompt t p).itemsOf k
      = t.itemsOf k ++
        (if treeHasKey t (resolvedCategory p) && (resolvedCategory p == k)
         then [p] else []) := by
  by_cases hany : treeHasKey t (resolvedCategory p) = true
  · rw [Tree.itemsOf, placePrompt_categories, if_pos hany, lookup_pushItem]
    cases hl : t.categories.lookup k with
    | none =>
      by_cases hrk : resolvedCategory p = k
      · exfalso
        have hm : resolvedCategory p ∈ t.categories.map Prod.fst :=
          (treeHasKey_eq_keys t _).mp hany
        rw [hrk] at hm
        have := (lookup_isSome_iff_mem_keys k t.categories).mpr hm
        rw [hl] at this
        simp at this
      · simp [Tree.itemsOf, hl, hrk]
    | some n =>
      by_cases hrk : resolvedCategory p = k
      · subst hrk
        simp [Tree.itemsOf, hl, hany]
      · have hkr : ¬k = resolvedCategory p := fun hh => hrk hh.symm
        simp [Tree.itemsOf, hl, hrk, hkr]
  · have hf : treeHasKey t (resolvedCategory p) = false := eq_false_of_ne_true hany
    rw [Tree.itemsOf, placePrompt_categories, if_neg (by simp [hf]), ← Tree.itemsOf]
    simp [hf]

theorem foldl_placePrompt_favorites (ps : List Prompt) : ∀ t : Tree,
    (ps.foldl placePrompt t).favorites
      = t.favorites ++ ps.filter (fun p => p.isFavorite) := by
  induction ps with
  | nil => intro t; simp
  | cons p ps ih =>
    intro t
    rw [List.foldl_cons, ih, placePrompt_favorites, List.filter_cons]
    by_cases hf : p.isFavorite <;> simp [hf]

theorem foldl_placePrompt_treeHasKey (ps : List Prompt) : ∀ (t : Tree) (k : String),
    treeHasKey (ps.foldl placePrompt t) k = treeHasKey t k := by
  induction ps with
  | nil => intro t k; rfl
  | cons p ps ih =>
    intro t k
    rw [List.foldl_cons, ih, placePrompt_treeHasKey]

theorem foldl_placePrompt_uncategorized (ps : List Prompt) : ∀ t : Tree,
    (ps.foldl placePrompt t).uncategorized
      = t.uncategorized ++
        ps.filter (fun p => !(treeHasKey t (resolvedCategory p))
          && (resolvedCategory p == "uncategorized") && !p.isFavorite) := by
  induction ps with
  | nil => intro t; simp
  | cons p ps ih =>
    intro t
    rw [List.foldl_cons, ih, placePrompt_uncategorized, List.filter_cons]
    have hcong : ps.filter (fun q => !(treeHasKey (placePrompt t p) (resolvedCategory q))
          && (resolvedCategory q == "uncategorized") && !q.isFavorite)
        = ps.filter (fun q => !(treeHasKey t (resolvedCategory q))
          && (resolvedCategory q == "uncategorized") && !q.isFavorite) := by
      apply List.filter_congr
      intro q _
      rw [placePrompt_treeHasKey]
    rw [hcong]
    by_cases hc : (!(treeHasKey t (resolvedCategory p))
        && (resolvedCategory p == "uncategorized") && !p.isFavorite) = true
    · rw [if_pos hc, if_pos hc]
      simp
    · rw [if_neg hc, if_neg hc]
      simp

theorem foldl_placePrompt_itemsOf (ps : List Prompt) : ∀ (t : Tree) (k : String),
    (ps.foldl placePrompt t).itemsOf k
      = t.itemsOf k ++
        ps.filter (fun p => treeHasKey t (resolvedCategory p)
          && (resolvedCategory p == k)) := by
  induction ps with
  | nil => intro t k; simp
  | cons p ps ih =>
    intro t k
    rw [List.foldl_cons, ih, itemsOf_placePrompt, List.filter_cons]
    have hcong : ps.filter (fun q => treeHasKey (placePrompt t p) (resolvedCategory q)
          && (resolvedCategory q == k))
        = ps.filter (fun q => treeHasKey t (resolvedCategory q)
          && (resolvedCategory q == k)) := by
      apply List.filter_congr
      intro q _
      rw [placePrompt_treeHasKey]
    rw [hcong]
    by_cases hc : (treeHasKey t (resolvedCategory p) && (resolvedCategory p == k)) = true
    · rw [if_pos hc, if_pos hc]
      simp
    · rw [if_neg hc, if_neg hc]
      simp

theorem childStep_keys (acc : List (String × CatNode)) (path : String) :
    (childStep acc path).map Prod.fst = acc.map Prod.fst := by
  rw [childStep]
  cases h : (acc.lookup path).bind CatNode.parent with
  | none => rfl
  | some pp =>
    dsimp only
    split_ifs <;> simp [pushChild_keys]

theorem foldl_childStep_keys (ks : List String) : ∀ acc : List (String × CatNode),
    ((ks.foldl childStep acc).map Prod.fst) = acc.map Prod.fst := by
  induction ks with
  | nil => intro acc; rfl
  | cons kk ks ih =>
    intro acc
    rw [List.foldl_cons, ih, childStep_keys]

theorem pushChild_items (acc : List (String × CatNode)) (pk ck : String)
    (h : ∀ kv ∈ acc, kv.2.items = []) :
    ∀ kv ∈ pushChild acc pk ck, kv.2.items = [] := by
  induction acc with
  | nil => intro kv hm; simp [pushChild] at hm
  | cons hd tl ih =>
    obtain ⟨k0, n0⟩ := hd
    intro kv hm
    rw [pushChild] at hm
    rcases List.mem_cons.mp hm with hm | hm
    · subst hm
      split_ifs <;>
        simpa using h (k0, n0) (List.mem_cons_self _ _)
    · exact ih (fun kv2 hm2 => h kv2 (List.mem_cons_of_mem _ hm2)) kv hm

theorem childStep_items (acc : List (String × CatNode)) (path : String)
    (h : ∀ kv ∈ acc, kv.2.items = []) :
    ∀ kv ∈ childStep acc path, kv.2.items = [] := by
  rw [childStep]
  cases hp : (acc.lookup path).bind CatNode.parent with
  | none => exact h
  | some pp =>
    dsimp only
    split_ifs with hc
    · exact pushChild_items acc pp path h
    · exact h

theorem foldl_childStep_items (ks : List String) : ∀ acc : List (String × CatNode),
    (∀ kv ∈ acc, kv.2.items = []) →
    ∀ kv ∈ ks.foldl childStep acc, kv.2.items = [] := by
  induction ks with
  | nil => intro acc h; exact h
  | cons kk ks ih =>
    intro acc h
    rw [List.foldl_cons]
    exact ih (childStep acc kk) (childStep_items acc kk h)

theorem initCategories_items (cats : List (String × CategoryInfo)) :
    ∀ kv ∈ initCategories cats, kv.2.items = [] := by
  intro kv hm
  rw [initCategories] at hm
  obtain ⟨kv0, _, hkv⟩ := List.mem_map.mp hm
  rw [← hkv]

theorem initCategories_keys (cats : List (String × CategoryInfo)) :
    (initCategories cats).map Prod.fst
      = (cats.filter (fun kv => !(kv.1 == "favorites"))).map Prod.fst := by
  rw [initCategories, List.map_map]
  rfl

theorem itemsOf_start (st : StorageManager) (k : String) :
    Tree.itemsOf
      ⟨populateChildren (initCategories st.categories), [], []⟩ k = [] := by
  rw [Tree.itemsOf]
  cases hl : (populateChildren (initCategories st.categories)).lookup k with
  | none => rfl
  | some n =>
    have hm := mem_of_lookup_eq_some hl
    have := foldl_childStep_items
      ((initCategories st.categories).map Prod.fst)
      (initCategories st.categories)
      (initCategories_items st.categories) (k, n) hm
    simpa using this

theorem start_keys (st : StorageManager) :
    (Tree.categories ⟨populateChildren (initCategories st.categories), [], []⟩).map
        Prod.fst = storedCatKeys st := by
  show (populateChildren (initCategories st.categories)).map Prod.fst = _
  rw [populateChildren, foldl_childStep_keys, initCategories_keys, storedCatKeys]

/-- Claim C2, amended — the placement rules `buildTreeStructure` actually
implements: (1) a favorite record always lands in the favorites bucket;
(2) a record with a non-empty category that is a stored key other than the
reserved `favorites` lands in that category's item list; (3) a non-favorite
record with an unset category lands only in the uncategorized bucket (when no
stored category is literally named `uncategorized`); (4) a non-favorite
record whose non-empty category names no tree entry appears in no bucket at
all — not even the uncategorized one (see the counterexample). -/
theorem buildTreeStructure_placement_amended (st : StorageManager) (p : Prompt)
    (hmem : p ∈ st.prompts.map Prod.snd) :
    (p.isFavorite = true → p ∈ (buildTreeStructure st).favorites) ∧
    (¬p.category = "" → p.category ∈ storedCatKeys st →
      p ∈ (buildTreeStructure st).itemsOf p.category) ∧
    (p.isFavorite = false → p.category = "" →
      "uncategorized" ∉ storedCatKeys st →
      p ∈ (buildTreeStructure st).uncategorized ∧
      p ∉ (buildTreeStructure st).favorites ∧
      ∀ k, p ∉ (buildTreeStructure st).itemsOf k) ∧
    (p.isFavorite = false → ¬p.category = "" → p.category ∉ storedCatKeys st →
      ¬p.category = "uncategorized" →
      p ∉ (buildTreeStructure st).uncategorized ∧
      p ∉ (buildTreeStructure st).favorites ∧
      ∀ k, p ∉ (buildTreeStructure st).itemsOf k) := by
  have hHasKey : ∀ k, treeHasKey
      ⟨populateChildren (initCategories st.categories), [], []⟩ k = true
        ↔ k ∈ storedCatKeys st := by
    intro k
    rw [treeHasKey_eq_keys, start_keys]
  have hfavs : (buildTreeStructure st).favorites
      = (st.prompts.map Prod.snd).filter (fun q => q.isFavorite) := by
    rw [buildTreeStructure, foldl_placePrompt_favorites]
    rfl
  have huncat : (buildTreeStructure st).uncategorized
      = (st.prompts.map Prod.snd).filter (fun q =>
          !(treeHasKey ⟨populateChildren (initCategories st.categories), [], []⟩
              (resolvedCategory q))
            && (resolvedCategory q == "uncategorized") && !q.isFavorite) := by
    rw [buildTreeStructure, foldl_placePrompt_uncategorized]
    rfl
  have hitems : ∀ k, (buildTreeStructure st).itemsOf k
      = (st.prompts.map Prod.snd).filter (fun q =>
          treeHasKey ⟨populateChildren (initCategories st.categories), [], []⟩
              (resolvedCategory q)
            && (resolvedCategory q == k)) := by
    intro k
    rw [buildTreeStructure, foldl_placePrompt_itemsOf, itemsOf_start]
    rfl
  refine ⟨?_, ?_, ?_, ?_⟩
  · intro hf
    rw [hfavs]
    exact List.mem_filter.mpr ⟨hmem, by simp [hf]⟩
  · intro hc hk
    rw [hitems p.category]
    refine List.mem_filter.mpr ⟨hmem, ?_⟩
    have hr : resolvedCategory p = p.category := by simp [resolvedCategory, hc]
    rw [hr]
    simp [(hHasKey p.category).mpr hk]
  · intro hf hc hnk
    have hr : resolvedCategory p = "uncategorized" := by simp [resolvedCategory, hc]
    have hkf : treeHasKey
        ⟨populateChildren (initCategories st.categories), [], []⟩
        "uncategorized" = false :=
      eq_false_of_ne_true (fun hh => hnk ((hHasKey "uncategorized").mp hh))
    refine ⟨?_, ?_, ?_⟩
    · rw [huncat]
      refine List.mem_filter.mpr ⟨hmem, ?_⟩
      rw [hr]
      simp [hkf, hf]
    · intro hmf
      rw [hfavs] at hmf
      have := (List.mem_filter.mp hmf).2
      rw [hf] at this
      exact Bool.false_ne_true this
    · intro k hmi
      rw [hitems k] at hmi
      have := (List.mem_filter.mp hmi).2
      rw [hr] at this
      rw [hkf] at this
      simp at this
  · intro hf hc hnk hnu
    have hr : resolvedCategory p = p.category := by simp [resolvedCategory, hc]
    have hkf : treeHasKey
        ⟨populateChildren (initCategories st.categories), [], []⟩
        p.category = false :=
      eq_false_of_ne_true (fun hh => hnk ((hHasKey p.category).mp hh))
    refine ⟨?_, ?_, ?_⟩
    · intro hmu
      rw [huncat] at hmu
      have := (List.mem_filter.mp hmu).2
      rw [hr] at this
      have hb : (p.category == "uncategorized") = false := by simpa using hnu
      rw [hb, hkf] at this
      simp at this
    · intro hmf
      rw [hfavs] at hmf
      have := (List.mem_filter.mp hmf).2
      rw [hf] at this
      exact Bool.false_ne_true this
    · intro k hmi
      rw [hitems k] at hmi
      have := (List.mem_filter.mp hmi).2
      rw [hr, hkf] at this
      simp at this

/-- Counterexample to claim C2 as stated: in a store whose only record has
the unknown category `ghost` (and is not a favorite), the built tree places
the record nowhere — the uncategorized bucket stays empty, contradicting the
claim that such a record appears in the uncategorized bucket. -/
theorem buildTreeStructure_claim_counterexample :
    (buildTreeStructure sampleStoreC2).uncategorized = [] ∧
    (buildTreeStructure sampleStoreC2).favorites = [] ∧
    (buildTreeStructure sampleStoreC2).itemsOf "general" = [] ∧
    sampleStoreC2.prompts.map Prod.snd = [samplePromptGhost] ∧
    samplePromptGhost.isFavorite = false ∧
    samplePromptGhost.category = "ghost" := by
  exact ⟨by decide, by decide, by decide, by decide, by decide, by decide⟩

/-- Witness for the amended C2 on a concrete store: a favorite record shows
up both under favorites and under its stored category, and a non-favorite
record with no category shows up under uncategorized. -/
theorem buildTreeStructure_placement_amended_witness :
    samplePrompt "a" "T" "general" true ∈ (buildTreeStructure sampleStoreC2W).favorites ∧
    samplePrompt "a" "T" "general" true
      ∈ (buildTreeStructure sampleStoreC2W).itemsOf "general" ∧
    samplePrompt "u" "U" "" false ∈ (buildTreeStructure sampleStoreC2W).uncategorized := by
  refine ⟨?_, ?_, ?_⟩
  · exact (buildTreeStructure_placement_amended sampleStoreC2W
      (samplePrompt "a" "T" "general" true) (by decide)).1 rfl
  · exact (buildTreeStructure_placement_amended sampleStoreC2W
      (samplePrompt "a" "T" "general" true) (by decide)).2.1 (by decide) (by decide)
  · exact ((buildTreeStructure_placement_amended sampleStoreC2W
      (samplePrompt "u" "U" "" false) (by decide)).2.2.1 rfl rfl (by decide)).1

end PromptManager
